import Mathlib

/-!
# Replica finder and schema validation: a shallow embedding

Embedding of `usecases/replica/finder.go`, of the partitioner exercised by
`usecases/replica/batch_test.go`, and of `validatePropertyTokenization` from
`usecases/schema/validation.go`.

Conventions.
* A Go `error` is a `GoError`; a `nil` error is `none`.
* A Go pointer `*storobj.Object` is an `Option Object`; `nil` is `none`.
* Every call that leaves the finder (resolver lookup, coordinator `Pull`, client
  RPC, log entry) is recorded as an `Event`; an operation returns its value together with the
  events it caused, in program order (`Traced`).
* `context.Context` arguments carry no data used by the modelled code and are
  omitted.
-/

set_option autoImplicit false

namespace Weaviate

/-! ## Errors -/

/-- A Go error value: `errors.New msg`, or an error built by `fmt.Errorf` with a
`%w` verb, which keeps the wrapped cause. -/
inductive GoError where
  | new (msg : String) : GoError
  | wrap (msg : String) (cause : GoError) : GoError
deriving DecidableEq, Repr

/-- The method `Error()`. -/
def GoError.Error : GoError → String
  | .new msg => msg
  | .wrap msg _ => msg

/-- The function `errors.Unwrap`. -/
def GoError.Unwrap : GoError → Option GoError
  | .new _ => none
  | .wrap _ cause => some cause

/-- The function `errors.Is`: the target occurs in the chain of causes. -/
def GoError.Is : GoError → GoError → Bool
  | .new msg, target => decide (GoError.new msg = target)
  | .wrap msg cause, target => decide (GoError.wrap msg cause = target) || GoError.Is cause target

/-- finder.go:29 -/
def msgCLevel : String := "cannot achieve consistency level"

/-- finder.go:31 -/
def errReplicas : GoError := .new "cannot reach enough replicas"

/-- finder.go:32 -/
def errRepair : GoError := .new "read repair error"

/-- finder.go:33 -/
def errRead : GoError := .new "read error"

/-! ## Data model -/

/-- The type `strfmt.UUID`, a string. -/
abbrev UUID := String

/-- The type `search.SelectProperties`; only passed through to the client. -/
abbrev SelectProperties := List String

/-- The type `additional.Properties`; only passed through to the client. -/
abbrev AdditionalProperties := List String

/-- Modelled from the spec: the declaration of `ConsistencyLevel` is not in
finder.go; the spec gives the enumeration ONE, QUORUM, ALL. -/
inductive ConsistencyLevel where
  | One
  | Quorum
  | All
deriving DecidableEq, Repr

/-- The spelling of a level, as the spec writes it. -/
def ConsistencyLevel.name : ConsistencyLevel → String
  | .One => "ONE"
  | .Quorum => "QUORUM"
  | .All => "ALL"

/-- The verb `%q` applied to a level: its spelling in double quotes. -/
def ConsistencyLevel.fmtQ (l : ConsistencyLevel) : String :=
  "\"" ++ l.name ++ "\""

/-- The fields of `storobj.Object` that the modelled code reads or writes. -/
structure Object where
  ID : UUID
  LastUpdateTimeUnix : Int
  BelongsToNode : String
  BelongsToShard : String
  IsConsistent : Bool
deriving DecidableEq, Repr

/-- The digest of one object (`RepairResponse`): the fields used in finder.go. -/
structure RepairResponse where
  Version : Int
  UpdateTime : Int
  Deleted : Bool
deriving DecidableEq, Repr, Inhabited

/-- The Go zero value of `RepairResponse` (`var x RepairResponse`). -/
def RepairResponse.zero : RepairResponse := ⟨0, 0, false⟩

/-- The fields of `objects.Replica` used in finder.go. -/
structure Replica where
  ID : UUID
  Deleted : Bool
  Object : Option Object
deriving DecidableEq, Repr

/-- finder.go:38-44, `senderReply[T]`. -/
structure senderReply (T : Type) where
  sender : String
  Version : Int
  Data : T
  UpdateTime : Int
  DigestRead : Bool

/-- finder.go:45 -/
abbrev findOneReply := senderReply Replica

/-- finder.go:46-49 -/
structure existReply where
  Sender : String
  RepairResponse : RepairResponse
deriving DecidableEq, Repr

/-- The reply of a batch read; the fields set in finder.go:121-124 and 237-240. -/
structure batchReply where
  Sender : String
  IsDigest : Bool
  FullData : List Replica
  DigestData : List RepairResponse
deriving DecidableEq, Repr

/-- finder.go:140-143 -/
structure ShardDesc where
  Name : String
  Node : String
deriving DecidableEq, Repr

/-! ## Observable events -/

/-- What the finder does outside itself. -/
inductive Event where
  | NodeHostname (nodeName : String) : Event
  | Pull (shard : String) (l : ConsistencyLevel) (directNode : String) : Event
  | FullRead (host className shard : String) (id : UUID)
      (props : SelectProperties) (adds : AdditionalProperties) : Event
  | FullReads (host className shard : String) (ids : List UUID) : Event
  | DigestReads (host className shard : String) (ids : List UUID) : Event
  | LogError (fields : List (String × String)) (err : GoError) : Event
deriving DecidableEq, Repr

/-- A value together with the events produced while computing it. -/
abbrev Traced (α : Type) := α × List Event

/-- The event is a call of the coordinator. -/
def Event.isPull : Event → Bool
  | .Pull .. => true
  | _ => false

/-- The event is one of the three client RPCs. -/
def Event.isClientCall : Event → Bool
  | .FullRead .. => true
  | .FullReads .. => true
  | .DigestReads .. => true
  | _ => false

/-- The event is a full read, single or batched. -/
def Event.isFullRead : Event → Bool
  | .FullRead .. => true
  | .FullReads .. => true
  | _ => false

/-! ## Collaborators -/

/-- The resolver: `NodeHostname(nodeName)` gives `(host, ok)`. -/
structure resolver where
  NodeHostname : String → String × Bool

/-- The replies of the replica client behind `finderClient`: full read, full
batch read and digest read, each answering with a value and an error. -/
structure finderClient where
  FullRead : String → String → String → UUID → SelectProperties → AdditionalProperties →
    Replica × Option GoError
  FullReads : String → String → String → List UUID → List Replica × Option GoError
  DigestReads : String → String → String → List UUID → List RepairResponse × Option GoError

/-- A value with an error, as delivered on a result channel (`Value`, `Err`). -/
structure Result (T : Type) where
  Value : T
  Err : Option GoError

/-- The reply channel handed out by `Pull`: the replies it will deliver, in
arrival order. -/
abbrev replyCh (T : Type) := List (Result T)

/-- The read coordinator, declared in another file: `Pull(ctx, l, op, directNode)`
gives `(replyCh, state, err)` and may run `op` on any hosts it selects. The
events are those that happen inside `Pull`; the call itself is recorded by the
caller as `Event.Pull`. -/
structure coordinator (St T : Type) where
  Pull : ConsistencyLevel → (String → Bool → Traced (T × Option GoError)) → String →
    Traced (replyCh T × St × Option GoError)

/-- One partition of a batch (batch_test.go:38-44); finder.go names the type
`shardPart`. -/
structure batchPart where
  Shard : String
  Node : String
  Data : List Object
  Index : List Nat
  Oks : List Bool
deriving DecidableEq, Repr

/-- The name used in finder.go:228. -/
abbrev shardPart := batchPart

/-- The finder (finder.go:53-56) with its resolver, class name and client,
together with the code it calls that is declared in other files, taken as
parameters: the coordinator constructor, the four read stages of the embedded
`finderStream`, `Replica.UpdateTime()` and `shardPart.Extract()`. `St` is the
type of the coordination state returned by `Pull`. -/
structure Finder (St : Type) where
  resolver : resolver
  className : String
  client : finderClient
  newReadCoordinator : (T : Type) → String → coordinator St T
  readOne : String → UUID → replyCh findOneReply → St → Traced (Result (Option Object))
  readAll : String → List UUID → replyCh batchReply → St →
    Traced (Result (List (Option Object)))
  readExistence : String → UUID → replyCh existReply → St → Traced (Result Bool)
  readBatchPart : shardPart → List UUID → replyCh batchReply → St →
    Traced (Result (List (Option Object)))
  UpdateTime : Replica → Int
  Extract : shardPart → List Replica × List UUID

/-- The call `fmt.Errorf("%s %q: %w", s, l, err)`. -/
def errorfLevel (s : String) (l : ConsistencyLevel) (err : GoError) : GoError :=
  .wrap (s ++ " " ++ l.fmtQ ++ ": " ++ err.Error) err

/-- The statement `if len(xs) == 1 then x = xs[0]` after `var x RepairResponse`. -/
def singleDigest : List RepairResponse → RepairResponse
  | [x] => x
  | _ => RepairResponse.zero

/-! ## Batch partitioner -/

/-- Modelled from the spec: the result of `createBatch` (declared in another
file), the objects together with their original positions. -/
structure Batch where
  Data : List Object
  Index : List Nat
deriving DecidableEq, Repr

/-- Modelled from the spec: `createBatch(objects)` (declared in another
file) keeps the object slice and numbers its positions `0..N-1`. -/
def createBatch (xs : List Object) : Batch :=
  ⟨xs, List.range xs.length⟩

/-- Modelled from the spec: the owning shard of the object at position `i`. -/
def Batch.shardOf (b : Batch) (i : Nat) : String :=
  match b.Data[i]? with
  | some o => o.BelongsToShard
  | none => ""

/-- Modelled from the spec: the owning node of the object at position `i`. -/
def Batch.nodeOf (b : Batch) (i : Nat) : String :=
  match b.Data[i]? with
  | some o => o.BelongsToNode
  | none => ""

/-- Modelled from the spec: the distinct names observed in a list, each at its
first occurrence. -/
def distinctNames : List String → List String
  | [] => []
  | s :: rest => s :: (distinctNames rest).filter (fun t => t != s)

/-- Modelled from the spec: the positions of a batch that lie on shard `s`, in
original relative order. -/
def Batch.indexOn (b : Batch) (s : String) : List Nat :=
  b.Index.filter (fun i => b.shardOf i == s)

/-- Modelled from the spec: the part of a batch for shard `s`, with the shard, the
node of the first object on it, the shared object slice, the positions on the
shard and a zeroed `Oks` of the length of the whole batch. -/
def Batch.partOn (b : Batch) (s : String) : batchPart :=
  { Shard := s
    Node := match b.indexOn s with
      | [] => ""
      | i :: _ => b.nodeOf i
    Data := b.Data
    Index := b.indexOn s
    Oks := List.replicate b.Data.length false }

/-- Modelled from the spec: `cluster(Batch)` (declared in another file) gives
one part per group of objects, each part with the original positions of its
objects in original relative order, the shared object slice and a zeroed `Oks`
sized to the whole batch. The grouping key is the one fixed by `TestBatchInput`
(batch_test.go:47-67): objects 3 (shard S2, node N1) and 0 (shard S2, node N2)
share a part, as do objects 4 (S1, N2) and 1 (S1, N1), so a part gathers the
objects of one shard and carries the node of its first object. Parts are listed
by first occurrence of their shard. -/
def cluster (b : Batch) : List batchPart :=
  (distinctNames (b.Index.map b.shardOf)).map b.partOn

/-- Modelled from the spec: the accessor `ObjectIDs()` (declared in another
file) returns the identities of a part in the same order as `Index`. -/
def batchPart.ObjectIDs (p : batchPart) : List UUID :=
  p.Index.filterMap (fun i => (p.Data[i]?).map (fun o => o.ID))

/-- batch_test.go:14-23 -/
def objectEx (id : UUID) (lastTime : Int) (shard node : String) : Object :=
  { ID := id, LastUpdateTimeUnix := lastTime, BelongsToShard := shard, BelongsToNode := node,
    IsConsistent := false }

/-- The first input of `TestBatchInput` (batch_test.go:31-35). -/
def testData1 : List Object :=
  (List.range 9).map (fun i => objectEx (toString i) 1 "S1" "N1")

/-- The second input of `TestBatchInput`, after the writes of batch_test.go:47-54. -/
def testData2 : List Object :=
  [ objectEx "0" 1 "S2" "N2", objectEx "1" 1 "S1" "N1", objectEx "2" 1 "S2" "N2",
    objectEx "3" 1 "S2" "N1", objectEx "4" 1 "S1" "N2", objectEx "5" 1 "S2" "N2",
    objectEx "6" 1 "S1" "N1", objectEx "7" 1 "S1" "N1", objectEx "8" 1 "S1" "N1" ]

/-- The distinct (shard, node) pairs of a list of objects. -/
def distinctPairs (xs : List Object) : List (String × String) :=
  (xs.map (fun o => (o.BelongsToShard, o.BelongsToNode))).dedup

/-! ## Finder operations (finder.go) -/

/-- The closure `op` of `GetOne` (finder.go:85-98). -/
def getOneOp {St : Type} (f : Finder St) (shard : String) (id : UUID) (props : SelectProperties)
    (adds : AdditionalProperties) (host : String) (fullRead : Bool) :
    Traced (findOneReply × Option GoError) :=
  if fullRead then
    let (r, err) := f.client.FullRead host f.className shard id props adds
    ((⟨host, 0, r, f.UpdateTime r, false⟩, err),
      [Event.FullRead host f.className shard id props adds])
  else
    let (xs, err) := f.client.DigestReads host f.className shard [id]
    let x := singleDigest xs
    let r : Replica := { ID := id, Deleted := x.Deleted, Object := none }
    ((⟨host, x.Version, r, x.UpdateTime, true⟩, err),
      [Event.DigestReads host f.className shard [id]])

/-- finder.go:78-109 -/
def GetOne {St : Type} (f : Finder St) (l : ConsistencyLevel) (shard : String) (id : UUID)
    (props : SelectProperties) (adds : AdditionalProperties) :
    Traced (Option Object × Option GoError) :=
  let c := f.newReadCoordinator findOneReply shard
  match c.Pull l (getOneOp f shard id props adds) "" with
  | ((_, _, some err), t) =>
    ((none, some (errorfLevel msgCLevel l errReplicas)),
      Event.Pull shard l "" :: t ++ [Event.LogError [("op", "pull.one")] err])
  | ((replyCh, state, none), t) =>
    match f.readOne shard id replyCh state with
    | (result, t2) =>
      match result.Err with
      | some err => ((result.Value, some (errorfLevel msgCLevel l err)), Event.Pull shard l "" :: t ++ t2)
      | none => ((result.Value, none), Event.Pull shard l "" :: t ++ t2)

/-- The closure `op` of `GetAll` (finder.go:118-126). -/
def getAllOp {St : Type} (f : Finder St) (shard : String) (ids : List UUID) (host : String)
    (fullRead : Bool) : Traced (batchReply × Option GoError) :=
  if fullRead then
    let (xs, err) := f.client.FullReads host f.className shard ids
    (({ Sender := host, IsDigest := false, FullData := xs, DigestData := [] }, err),
      [Event.FullReads host f.className shard ids])
  else
    let (xs, err) := f.client.DigestReads host f.className shard ids
    (({ Sender := host, IsDigest := true, FullData := [], DigestData := xs }, err),
      [Event.DigestReads host f.className shard ids])

/-- finder.go:112-138 -/
def GetAll {St : Type} (f : Finder St) (l : ConsistencyLevel) (shard : String)
    (ids : List UUID) : Traced (List (Option Object) × Option GoError) :=
  let c := f.newReadCoordinator batchReply shard
  match c.Pull l (getAllOp f shard ids) "" with
  | ((_, _, some err), t) =>
    (([], some (errorfLevel msgCLevel l errReplicas)),
      Event.Pull shard l "" :: t ++ [Event.LogError [("op", "pull.all")] err])
  | ((replyCh, state, none), t) =>
    match f.readAll shard ids replyCh state with
    | (result, t2) =>
      match result.Err with
      | some err => ((result.Value, some (errorfLevel msgCLevel l err)), Event.Pull shard l "" :: t ++ t2)
      | none => ((result.Value, none), Event.Pull shard l "" :: t ++ t2)

/-- The closure `op` of `Exists` (finder.go:190-197); the flag is ignored. -/
def existsOp {St : Type} (f : Finder St) (shard : String) (id : UUID) (host : String)
    (_fullRead : Bool) : Traced (existReply × Option GoError) :=
  let (xs, err) := f.client.DigestReads host f.className shard [id]
  let x := singleDigest xs
  ((⟨host, x⟩, err), [Event.DigestReads host f.className shard [id]])

/-- finder.go:184-208 -/
def Exists {St : Type} (f : Finder St) (l : ConsistencyLevel) (shard : String) (id : UUID) :
    Traced (Bool × Option GoError) :=
  let c := f.newReadCoordinator existReply shard
  match c.Pull l (existsOp f shard id) "" with
  | ((_, _, some err), t) =>
    ((false, some (errorfLevel msgCLevel l errReplicas)),
      Event.Pull shard l "" :: t ++ [Event.LogError [("op", "pull.exist")] err])
  | ((replyCh, state, none), t) =>
    match f.readExistence shard id replyCh state with
    | (result, t2) =>
      match result.Err with
      | some err => ((result.Value, some (errorfLevel msgCLevel l err)), Event.Pull shard l "" :: t ++ t2)
      | none => ((result.Value, none), Event.Pull shard l "" :: t ++ t2)

/-- finder.go:212-224 -/
def NodeObject {St : Type} (f : Finder St) (nodeName shard : String) (id : UUID)
    (props : SelectProperties) (adds : AdditionalProperties) :
    Traced (Option Object × Option GoError) :=
  let (host, ok) := f.resolver.NodeHostname nodeName
  if !ok || host == "" then
    ((none, some (.new ("cannot resolve node name: " ++ nodeName))),
      [Event.NodeHostname nodeName])
  else
    let (r, err) := f.client.FullRead host f.className shard id props adds
    ((r.Object, err),
      [Event.NodeHostname nodeName, Event.FullRead host f.className shard id props adds])

/-- The closure `op` of `checkShardConsistency` (finder.go:235-242). -/
def checkShardOp {St : Type} (f : Finder St) (shard : String) (data : List Replica)
    (ids : List UUID) (host : String) (fullRead : Bool) : Traced (batchReply × Option GoError) :=
  if fullRead then
    (({ Sender := host, IsDigest := false, FullData := data, DigestData := [] }, none), [])
  else
    let (xs, err) := f.client.DigestReads host f.className shard ids
    (({ Sender := host, IsDigest := true, FullData := [], DigestData := xs }, err),
      [Event.DigestReads host f.className shard ids])

/-- finder.go:226-250 -/
def checkShardConsistency {St : Type} (f : Finder St) (l : ConsistencyLevel)
    (batch : shardPart) : Traced (List (Option Object) × Option GoError) :=
  let c := f.newReadCoordinator batchReply batch.Shard
  let shard := batch.Shard
  let (data, ids) := f.Extract batch
  match c.Pull l (checkShardOp f shard data ids) batch.Node with
  | ((_, _, some _), t) =>
    (([], some (.wrap ("pull shard: " ++ errReplicas.Error) errReplicas)),
      Event.Pull shard l batch.Node :: t)
  | ((replyCh, state, none), t) =>
    match f.readBatchPart batch ids replyCh state with
    | (result, t2) => ((result.Value, result.Err), Event.Pull shard l batch.Node :: t ++ t2)

/-- The validation loop of `CheckConsistency` (finder.go:151-158), from index `i`
on: the error of the first offending entry, if any. -/
def checkEntries : Nat → List (Option Object) → Option GoError
  | _, [] => none
  | i, none :: _ => some (.new ("contains nil at object at index " ++ toString i))
  | i, some x :: rest =>
    if x.BelongsToNode == "" || x.BelongsToShard == "" then
      some (.new ("missing node or shard at index " ++ toString i))
    else checkEntries (i + 1) rest

/-- The loop over the parts in `CheckConsistency` (finder.go:166-172): every part
is checked, and an error of the check is logged. -/
def sweepParts {St : Type} (f : Finder St) (l : ConsistencyLevel) : List shardPart → List Event
  | [] => []
  | x :: rest =>
    match checkShardConsistency f l x with
    | ((_, some err), t) =>
      t ++ [Event.LogError [("op", "check_shard_consistency"), ("shard", x.Shard)] err] ++
        sweepParts f l rest
    | ((_, none), t) => t ++ sweepParts f l rest

/-- The assignment `xs[i].IsConsistent = true` for every `i` (finder.go:160-162). -/
def markConsistent (xs : List (Option Object)) : List (Option Object) :=
  xs.map (Option.map (fun x => { x with IsConsistent := true }))

/-- finder.go:145-181. The result is the returned error together with the object
list after the writes made by `CheckConsistency` itself (finder.go:161). After
the validation loop no entry is nil, so the entries are dereferenced with
`reduceOption` before partitioning. -/
def CheckConsistency {St : Type} (f : Finder St) (l : ConsistencyLevel)
    (xs : List (Option Object)) : Traced (Option GoError × List (Option Object)) :=
  if xs.length = 0 then ((none, xs), [])
  else
    match checkEntries 0 xs with
    | some err => ((some err, xs), [])
    | none =>
      if l = ConsistencyLevel.One then ((none, markConsistent xs), [])
      else ((none, xs), sweepParts f l (cluster (createBatch xs.reduceOption)))

/-! ## Property tokenization (validation.go) -/

/-- The string constants compared by `validatePropertyTokenization`; they are
declared in `entities/models` and `entities/schema`, not in validation.go, and
are taken as parameters. -/
structure Constants where
  PropertyTokenizationField : String
  PropertyTokenizationWord : String
  PropertyTokenizationWhitespace : String
  PropertyTokenizationLowercase : String
  DataTypeString : String
  DataTypeStringArray : String
  DataTypeText : String
  DataTypeTextArray : String

/-- A property data type: a primitive with its `DataType` name, or a reference
to classes. -/
inductive PropertyDataType where
  | primitive (dataType : String) : PropertyDataType
  | reference (classes : List String) : PropertyDataType
deriving DecidableEq, Repr

/-- The method `IsPrimitive()`. -/
def PropertyDataType.IsPrimitive : PropertyDataType → Bool
  | .primitive _ => true
  | .reference _ => false

/-- The method `AsPrimitive()`. -/
def PropertyDataType.AsPrimitive : PropertyDataType → String
  | .primitive d => d
  | .reference _ => ""

/-- validation.go:47-77 -/
def validatePropertyTokenization (k : Constants) (tokenization : String)
    (propertyDataType : PropertyDataType) : Option GoError :=
  if propertyDataType.IsPrimitive then
    let primitiveDataType := propertyDataType.AsPrimitive
    if primitiveDataType = k.DataTypeString ∨ primitiveDataType = k.DataTypeStringArray then
      if tokenization = k.PropertyTokenizationField ∨
          tokenization = k.PropertyTokenizationWord then none
      else some (.new ("Tokenization '" ++ tokenization ++ "' is not allowed for data type '" ++
        primitiveDataType ++ "'"))
    else if primitiveDataType = k.DataTypeText ∨ primitiveDataType = k.DataTypeTextArray then
      if tokenization = k.PropertyTokenizationField ∨
          tokenization = k.PropertyTokenizationWord ∨
          tokenization = k.PropertyTokenizationWhitespace ∨
          tokenization = k.PropertyTokenizationLowercase then none
      else some (.new ("Tokenization '" ++ tokenization ++ "' is not allowed for data type '" ++
        primitiveDataType ++ "'"))
    else if tokenization = "" then none
    else some (.new ("Tokenization is not allowed for data type '" ++ primitiveDataType ++ "'"))
  else if tokenization = "" then none
  else some (.new "Tokenization is not allowed for reference data type")

/-! ## Example collaborators -/

/-- A finder none of whose collaborators answers: the resolver knows no node,
every RPC fails and `Pull` reaches no replica. -/
def downFinder : Finder Unit where
  resolver := ⟨fun _ => ("", false)⟩
  className := "C"
  client :=
    { FullRead := fun _ _ _ id _ _ => (⟨id, false, none⟩, some errRead)
      FullReads := fun _ _ _ _ => ([], some errRead)
      DigestReads := fun _ _ _ _ => ([], some errRead) }
  newReadCoordinator := fun _ _ => ⟨fun _ _ _ => (([], (), some (GoError.new "no host")), [])⟩
  readOne := fun _ _ _ _ => (⟨none, some errRead⟩, [])
  readAll := fun _ _ _ _ => (⟨[], some errRead⟩, [])
  readExistence := fun _ _ _ _ => (⟨false, some errRead⟩, [])
  readBatchPart := fun _ _ _ _ => (⟨[], some errRead⟩, [])
  UpdateTime := fun _ => 0
  Extract := fun p => ([], p.ObjectIDs)

/-- A finder on a two-replica cluster: the resolver maps node `N` to host
`host-N`, the client answers every read, `Pull` asks host `h1` for a full read
and host `h2` for a digest and fails for shard `S2`, and every read stage but
`readExistence` reports a repair error. -/
def demoFinder : Finder Unit where
  resolver := ⟨fun n => ("host-" ++ n, true)⟩
  className := "C"
  client :=
    { FullRead := fun _ _ _ id _ _ => (⟨id, false, some (objectEx id 7 "S1" "N1")⟩, none)
      FullReads := fun _ _ _ ids => (ids.map (fun id => ⟨id, false, none⟩), none)
      DigestReads := fun _ _ _ ids => (ids.map (fun _ => ⟨1, 7, false⟩), none) }
  newReadCoordinator := fun _ shard => ⟨fun _ op _ =>
    if shard = "S2" then (([], (), some (GoError.new "no host")), [])
    else (([⟨(op "h1" true).1.1, (op "h1" true).1.2⟩, ⟨(op "h2" false).1.1, (op "h2" false).1.2⟩],
      (), none), (op "h1" true).2 ++ (op "h2" false).2)⟩
  readOne := fun _ _ _ _ => (⟨none, some errRepair⟩, [])
  readAll := fun _ _ _ _ => (⟨[], some errRepair⟩, [])
  readExistence := fun _ _ _ _ => (⟨true, none⟩, [])
  readBatchPart := fun _ _ _ _ => (⟨[], some errRepair⟩, [])
  UpdateTime := fun r => match r.Object with
    | some o => o.LastUpdateTimeUnix
    | none => 0
  Extract := fun p => ([], p.ObjectIDs)

/-- The real values of the constants of `validatePropertyTokenization`. -/
def weaviateConstants : Constants where
  PropertyTokenizationField := "field"
  PropertyTokenizationWord := "word"
  PropertyTokenizationWhitespace := "whitespace"
  PropertyTokenizationLowercase := "lowercase"
  DataTypeString := "string"
  DataTypeStringArray := "string[]"
  DataTypeText := "text"
  DataTypeTextArray := "text[]"

/-! ## Lemmas on the validation loop -/

/-- An entry that passes the validation loop. -/
def validEntry (x : Option Object) : Prop :=
  ∃ o, x = some o ∧ o.BelongsToNode ≠ "" ∧ o.BelongsToShard ≠ ""

theorem checkEntries_valid (xs : List (Option Object)) :
    ∀ k, (∀ x ∈ xs, validEntry x) → checkEntries k xs = none := by
  induction xs with
  | nil => intro k _; rfl
  | cons x rest ih =>
    intro k h
    obtain ⟨o, rfl, hn, hs⟩ := h x (List.mem_cons_self _ _)
    have hrest := ih (k + 1) (fun y hy => h y (List.mem_cons_of_mem _ hy))
    simp [checkEntries, hn, hs, hrest]

theorem checkEntries_missing (xs : List (Option Object)) :
    ∀ (k i : Nat), (∀ j, j < i → ∃ x, xs[j]? = some x ∧ validEntry x) →
      (∃ o, xs[i]? = some (some o) ∧ (o.BelongsToNode = "" ∨ o.BelongsToShard = "")) →
      checkEntries k xs = some (.new ("missing node or shard at index " ++ toString (k + i))) := by
  induction xs with
  | nil => intro k i _ h; obtain ⟨o, ho, _⟩ := h; simp at ho
  | cons x rest ih =>
    intro k i hbefore hat
    cases i with
    | zero =>
      obtain ⟨o, ho, hbad⟩ := hat
      simp at ho
      subst ho
      rcases hbad with hb | hb <;> simp [checkEntries, hb]
    | succ i =>
      obtain ⟨y, hy, o, rfl, hn, hs⟩ := hbefore 0 (Nat.succ_pos i)
      simp at hy
      subst hy
      have hrest := ih (k + 1) i
        (fun j hj => by simpa using hbefore (j + 1) (Nat.succ_lt_succ hj))
        (by simpa using hat)
      rw [checkEntries, hrest, Nat.add_assoc, Nat.add_comm 1 i]
      simp [hn, hs]

theorem checkEntries_nil (xs : List (Option Object)) :
    ∀ (k i : Nat), (∀ j, j < i → ∃ x, xs[j]? = some x ∧ validEntry x) →
      xs[i]? = some none →
      checkEntries k xs = some (.new ("contains nil at object at index " ++ toString (k + i))) := by
  induction xs with
  | nil => intro k i _ h; simp at h
  | cons x rest ih =>
    intro k i hbefore hat
    cases i with
    | zero =>
      simp at hat
      subst hat
      simp [checkEntries]
    | succ i =>
      obtain ⟨y, hy, o, rfl, hn, hs⟩ := hbefore 0 (Nat.succ_pos i)
      simp at hy
      subst hy
      have hrest := ih (k + 1) i
        (fun j hj => by simpa using hbefore (j + 1) (Nat.succ_lt_succ hj))
        (by simpa using hat)
      rw [checkEntries, hrest, Nat.add_assoc, Nat.add_comm 1 i]
      simp [hn, hs]

/-! ## The consistency sweep: validation and level ONE -/

/-- C1: for a non-empty list whose entries are all non-nil with node and shard
set, `CheckConsistency` at level ONE returns nil, causes no event at all (no
resolver lookup, no Pull, no digest or full read, no log entry), and returns the
same objects with `IsConsistent` set to true on every one of them. -/
theorem CheckConsistency_level_one {St : Type} (f : Finder St) (xs : List (Option Object))
    (hne : xs ≠ []) (hvalid : ∀ x ∈ xs, validEntry x) :
    (CheckConsistency f ConsistencyLevel.One xs).1.1 = none ∧
    (CheckConsistency f ConsistencyLevel.One xs).2 = [] ∧
    (CheckConsistency f ConsistencyLevel.One xs).1.2 =
      xs.map (Option.map (fun o => { o with IsConsistent := true })) ∧
    (∀ x ∈ (CheckConsistency f ConsistencyLevel.One xs).1.2,
      ∃ o, x = some o ∧ o.IsConsistent = true) := by
  have hlen : xs.length ≠ 0 := by
    cases xs with
    | nil => exact absurd rfl hne
    | cons _ _ => simp
  have hres : CheckConsistency f ConsistencyLevel.One xs = ((none, markConsistent xs), []) := by
    simp [CheckConsistency, hlen, checkEntries_valid xs 0 hvalid]
  rw [hres]
  refine ⟨rfl, rfl, rfl, ?_⟩
  intro x hx
  simp only [markConsistent, List.mem_map] at hx
  obtain ⟨y, hy, rfl⟩ := hx
  obtain ⟨o, rfl, _, _⟩ := hvalid y hy
  exact ⟨_, rfl, rfl⟩

/-- Instance of C1: two valid objects on different shards, checked at level ONE. -/
theorem CheckConsistency_level_one_witness :
    (CheckConsistency downFinder ConsistencyLevel.One
        [some (objectEx "a" 1 "S1" "N1"), some (objectEx "b" 1 "S2" "N2")]).1.2 =
      [some { objectEx "a" 1 "S1" "N1" with IsConsistent := true },
       some { objectEx "b" 1 "S2" "N2" with IsConsistent := true }] :=
  (CheckConsistency_level_one downFinder
    [some (objectEx "a" 1 "S1" "N1"), some (objectEx "b" 1 "S2" "N2")]
    (by simp)
    (by
      intro x hx
      simp only [List.mem_cons, List.mem_singleton, List.not_mem_nil, or_false] at hx
      rcases hx with rfl | rfl
      · exact ⟨_, rfl, by decide, by decide⟩
      · exact ⟨_, rfl, by decide, by decide⟩)).2.2.1

/-- C2: at every level, when the first entry that fails validation sits at index
`i` and is a non-nil object with an empty node or an empty shard,
`CheckConsistency` returns the error "missing node or shard at index i", causes
no event (no resolver or client call), and returns the object list unchanged. -/
theorem CheckConsistency_missing_node_or_shard {St : Type} (f : Finder St)
    (l : ConsistencyLevel) (xs : List (Option Object)) (i : Nat)
    (hbefore : ∀ j, j < i → ∃ x, xs[j]? = some x ∧ validEntry x)
    (hat : ∃ o, xs[i]? = some (some o) ∧ (o.BelongsToNode = "" ∨ o.BelongsToShard = "")) :
    CheckConsistency f l xs =
      ((some (GoError.new ("missing node or shard at index " ++ toString i)), xs), []) := by
  have hlen : xs.length ≠ 0 := by
    obtain ⟨o, ho, _⟩ := hat
    cases xs with
    | nil => simp at ho
    | cons _ _ => simp
  have h := checkEntries_missing xs 0 i hbefore hat
  rw [Nat.zero_add] at h
  simp [CheckConsistency, hlen, h]

/-- Instance of C2: the second of three entries has an empty shard. -/
theorem CheckConsistency_missing_node_or_shard_witness :
    CheckConsistency demoFinder ConsistencyLevel.Quorum
        [some (objectEx "a" 1 "S1" "N1"), some (objectEx "b" 1 "" "N2"), none] =
      ((some (GoError.new "missing node or shard at index 1"),
        [some (objectEx "a" 1 "S1" "N1"), some (objectEx "b" 1 "" "N2"), none]), []) :=
  CheckConsistency_missing_node_or_shard demoFinder ConsistencyLevel.Quorum
    [some (objectEx "a" 1 "S1" "N1"), some (objectEx "b" 1 "" "N2"), none] 1
    (by
      intro j hj
      have hj0 : j = 0 := by omega
      subst hj0
      exact ⟨_, rfl, _, rfl, by decide, by decide⟩)
    ⟨_, rfl, Or.inr (by decide)⟩

/-- C3, as the spec states it, fails: for the list holding one nil entry the
error message is "contains nil at object at index 0", not "nil object at index 0". -/
theorem CheckConsistency_nil_message_counterexample :
    ((CheckConsistency downFinder ConsistencyLevel.Quorum [none]).1.1).map GoError.Error =
        some "contains nil at object at index 0" ∧
    ((CheckConsistency downFinder ConsistencyLevel.Quorum [none]).1.1).map GoError.Error ≠
        some "nil object at index 0" := by
  constructor
  · rfl
  · decide

/-- C3 (amended): at every level, when the first entry that fails validation is
a nil entry at index `N`, `CheckConsistency` returns an error whose message is
"contains nil at object at index N", causes no event and returns the list
unchanged. -/
theorem CheckConsistency_nil_entry {St : Type} (f : Finder St)
    (l : ConsistencyLevel) (xs : List (Option Object)) (N : Nat)
    (hbefore : ∀ j, j < N → ∃ x, xs[j]? = some x ∧ validEntry x)
    (hat : xs[N]? = some none) :
    ((CheckConsistency f l xs).1.1).map GoError.Error =
        some ("contains nil at object at index " ++ toString N) ∧
    CheckConsistency f l xs =
      ((some (GoError.new ("contains nil at object at index " ++ toString N)), xs), []) := by
  have hlen : xs.length ≠ 0 := by
    cases xs with
    | nil => simp at hat
    | cons _ _ => simp
  have h := checkEntries_nil xs 0 N hbefore hat
  rw [Nat.zero_add] at h
  have hres : CheckConsistency f l xs =
      ((some (GoError.new ("contains nil at object at index " ++ toString N)), xs), []) := by
    simp [CheckConsistency, hlen, h]
  rw [hres]
  exact ⟨rfl, rfl⟩

/-- Instance of C3 (amended): the second of two entries is nil. -/
theorem CheckConsistency_nil_entry_witness :
    ((CheckConsistency demoFinder ConsistencyLevel.All
        [some (objectEx "a" 1 "S1" "N1"), none]).1.1).map GoError.Error =
      some "contains nil at object at index 1" :=
  (CheckConsistency_nil_entry demoFinder ConsistencyLevel.All
    [some (objectEx "a" 1 "S1" "N1"), none] 1
    (by
      intro j hj
      have hj0 : j = 0 := by omega
      subst hj0
      exact ⟨_, rfl, _, rfl, by decide, by decide⟩)
    rfl).1

/-! ## Single-node read, existence check, error wrapping -/

/-- C6, as the spec states it, fails on resolver failure: with a resolver that
knows no node, `NodeObject` issues no client RPC at all, and the error it returns
is its own "cannot resolve node name" error, which is not the error the client
would have returned. -/
theorem NodeObject_unresolved_counterexample :
    ((NodeObject downFinder "n1" "S1" "id" [] []).2.filter Event.isClientCall).length = 0 ∧
    (NodeObject downFinder "n1" "S1" "id" [] []).1.2 =
      some (GoError.new "cannot resolve node name: n1") ∧
    (∀ host : String, (NodeObject downFinder "n1" "S1" "id" [] []).1.2 ≠
      (downFinder.client.FullRead host "C" "S1" "id" [] []).2) := by
  refine ⟨rfl, rfl, ?_⟩
  intro host h
  exact absurd h (by simp [NodeObject, downFinder, errRead])

/-- C6 (amended): when the resolver maps the node name to a non-empty host,
`NodeObject` looks the name up and issues exactly one client RPC, a single
`FullRead` to that host, and returns the object and the error of the client
unchanged; when the resolver does not know the name or gives an empty host,
`NodeObject` issues no client RPC and returns nil with the error
"cannot resolve node name: " followed by the node name. -/
theorem NodeObject_spec {St : Type} (f : Finder St) (nodeName shard : String) (id : UUID)
    (props : SelectProperties) (adds : AdditionalProperties) :
    (∀ host, f.resolver.NodeHostname nodeName = (host, true) → host ≠ "" →
      NodeObject f nodeName shard id props adds =
        (((f.client.FullRead host f.className shard id props adds).1.Object,
          (f.client.FullRead host f.className shard id props adds).2),
         [Event.NodeHostname nodeName, Event.FullRead host f.className shard id props adds]) ∧
      ((NodeObject f nodeName shard id props adds).2.filter Event.isClientCall).length = 1) ∧
    ((f.resolver.NodeHostname nodeName).2 = false ∨ (f.resolver.NodeHostname nodeName).1 = "" →
      NodeObject f nodeName shard id props adds =
        ((none, some (GoError.new ("cannot resolve node name: " ++ nodeName))),
         [Event.NodeHostname nodeName])) := by
  constructor
  · intro host hres hhost
    have h : NodeObject f nodeName shard id props adds =
        (((f.client.FullRead host f.className shard id props adds).1.Object,
          (f.client.FullRead host f.className shard id props adds).2),
         [Event.NodeHostname nodeName, Event.FullRead host f.className shard id props adds]) := by
      simp [NodeObject, hres, hhost]
    rw [h]
    exact ⟨rfl, rfl⟩
  · intro h
    rcases hres : f.resolver.NodeHostname nodeName with ⟨host, ok⟩
    rw [hres] at h
    rcases h with h | h
    · simp only at h
      subst h
      simp [NodeObject, hres]
    · simp only at h
      subst h
      simp [NodeObject, hres]

/-- Instance of C6 (amended): a node that resolves, and a node that does not. -/
theorem NodeObject_spec_witness :
    NodeObject demoFinder "N1" "S1" "id" [] [] =
        ((some (objectEx "id" 7 "S1" "N1"), none),
         [Event.NodeHostname "N1", Event.FullRead "host-N1" "C" "S1" "id" [] []]) ∧
    NodeObject downFinder "N1" "S1" "id" [] [] =
        ((none, some (GoError.new "cannot resolve node name: N1")),
         [Event.NodeHostname "N1"]) :=
  ⟨((NodeObject_spec demoFinder "N1" "S1" "id" [] []).1 "host-N1" rfl (by decide)).1,
   (NodeObject_spec downFinder "N1" "S1" "id" [] []).2 (Or.inl rfl)⟩

/-- C7: for every host and both values of the flag, the operation that `Exists`
hands to the coordinator issues exactly one client call, a `DigestReads` with
the singleton id list, hence no `FullRead` and no `FullReads`; its reply names
the host and carries the single digest returned, or the zero digest when the
returned list does not have length 1, and its error is the error of the client.
Moreover, whenever every event of `Pull` stems from running the operation and
the read stage issues no full read, `Exists` as a whole issues no full read. -/
theorem Exists_digest_only {St : Type} (f : Finder St) (l : ConsistencyLevel) (shard : String)
    (id : UUID) :
    (∀ (host : String) (fullRead : Bool),
      (existsOp f shard id host fullRead).2 =
        [Event.DigestReads host f.className shard [id]] ∧
      (∀ e ∈ (existsOp f shard id host fullRead).2, e.isFullRead = false) ∧
      (existsOp f shard id host fullRead).1.1.Sender = host ∧
      (existsOp f shard id host fullRead).1.2 =
        (f.client.DigestReads host f.className shard [id]).2 ∧
      (∀ x, (f.client.DigestReads host f.className shard [id]).1 = [x] →
        (existsOp f shard id host fullRead).1.1.RepairResponse = x) ∧
      ((f.client.DigestReads host f.className shard [id]).1.length ≠ 1 →
        (existsOp f shard id host fullRead).1.1.RepairResponse = ⟨0, 0, false⟩)) ∧
    ((∀ (op : String → Bool → Traced (existReply × Option GoError)) (directNode : String),
        ∀ e ∈ ((f.newReadCoordinator existReply shard).Pull l op directNode).2,
          ∃ host fullRead, e ∈ (op host fullRead).2) →
      (∀ ch st, ∀ e ∈ (f.readExistence shard id ch st).2, e.isFullRead = false) →
      ∀ e ∈ (Exists f l shard id).2, e.isFullRead = false) := by
  have hop : ∀ (host : String) (fullRead : Bool),
      (existsOp f shard id host fullRead).2 =
        [Event.DigestReads host f.className shard [id]] := by
    intro host fullRead
    rfl
  constructor
  · intro host fullRead
    refine ⟨rfl, ?_, rfl, rfl, ?_, ?_⟩
    · intro e he
      rw [hop] at he
      simp only [List.mem_singleton] at he
      subst he
      rfl
    · intro x hx
      simp [existsOp, hx, singleDigest]
    · intro hlen
      rcases hxs : (f.client.DigestReads host f.className shard [id]).1 with _ | ⟨a, _ | ⟨b, t⟩⟩
      · simp [existsOp, hxs, singleDigest, RepairResponse.zero]
      · rw [hxs] at hlen
        simp at hlen
      · simp [existsOp, hxs, singleDigest, RepairResponse.zero]
  · intro hPull hRead e he
    have hPullOk : ∀ e ∈ ((f.newReadCoordinator existReply shard).Pull l
        (existsOp f shard id) "").2, e.isFullRead = false := by
      intro e he
      obtain ⟨host, fullRead, hmem⟩ := hPull (existsOp f shard id) "" e he
      rw [hop] at hmem
      simp only [List.mem_singleton] at hmem
      subst hmem
      rfl
    unfold Exists at he
    rcases hp : (f.newReadCoordinator existReply shard).Pull l (existsOp f shard id) ""
      with ⟨⟨ch, st, perr⟩, t⟩
    rw [hp] at hPullOk
    simp only [hp] at he
    cases perr with
    | some err =>
      simp only [List.mem_cons, List.mem_append, List.mem_singleton, List.not_mem_nil,
        or_false] at he
      rcases he with (he | he) | he
      · subst he
        rfl
      · exact hPullOk e he
      · subst he
        rfl
    | none =>
      simp only at he
      have hR := hRead ch st
      rcases hr : f.readExistence shard id ch st with ⟨result, t2⟩
      rw [hr] at hR
      simp only [hr] at he
      cases hErr : result.Err with
      | some err =>
        simp only [hErr, List.mem_cons, List.mem_append] at he
        rcases he with (he | he) | he
        · subst he
          rfl
        · exact hPullOk e he
        · exact hR e he
      | none =>
        simp only [hErr, List.mem_cons, List.mem_append] at he
        rcases he with (he | he) | he
        · subst he
          rfl
        · exact hPullOk e he
        · exact hR e he

/-- Instance of C7: an existence check on the two-replica example cluster. -/
theorem Exists_digest_only_witness :
    ∀ e ∈ (Exists demoFinder ConsistencyLevel.Quorum "S1" "id").2, e.isFullRead = false :=
  (Exists_digest_only demoFinder ConsistencyLevel.Quorum "S1" "id").2
    (by
      intro op directNode e he
      simp only [demoFinder] at he
      simp only [List.mem_append, reduceIte, String.reduceEq] at he
      rcases he with he | he
      · exact ⟨"h1", true, he⟩
      · exact ⟨"h2", false, he⟩)
    (by
      intro ch st e he
      simp [demoFinder] at he)

/-- The message of `fmt.Errorf("%s %q: %w", msgCLevel, l, err)`. -/
theorem errorfLevel_Error (l : ConsistencyLevel) (err : GoError) :
    (errorfLevel msgCLevel l err).Error =
      "cannot achieve consistency level \"" ++ l.name ++ "\": " ++ err.Error := by
  cases l <;>
    simp only [errorfLevel, GoError.Error, msgCLevel, ConsistencyLevel.fmtQ,
      ConsistencyLevel.name] <;>
    exact congrArg (fun s => s ++ err.Error) (by decide)

/-- C8: for every level `l`: when `Pull` returns an error, whatever it is,
`GetOne`, `GetAll` and `Exists` return the zero value (nil object, nil slice,
false) with one and the same error, whose message is
`cannot achieve consistency level "<l>": cannot reach enough replicas` and which
wraps `errReplicas`; and when `Pull` succeeds and the read stage delivers a
non-nil error, that error is returned with the message prefixed by
`cannot achieve consistency level "<l>": ` and still wrapped as the cause. -/
theorem read_errors_name_level {St : Type} (f : Finder St) (l : ConsistencyLevel)
    (shard : String) (id : UUID) (ids : List UUID) (props : SelectProperties)
    (adds : AdditionalProperties) :
    ((errorfLevel msgCLevel l errReplicas).Error =
        "cannot achieve consistency level \"" ++ l.name ++ "\": cannot reach enough replicas" ∧
      (errorfLevel msgCLevel l errReplicas).Unwrap = some errReplicas ∧
      (errorfLevel msgCLevel l errReplicas).Is errReplicas = true) ∧
    (∀ perr, ((f.newReadCoordinator findOneReply shard).Pull l
          (getOneOp f shard id props adds) "").1.2.2 = some perr →
        (GetOne f l shard id props adds).1 =
          (none, some (errorfLevel msgCLevel l errReplicas))) ∧
    (∀ perr, ((f.newReadCoordinator batchReply shard).Pull l
          (getAllOp f shard ids) "").1.2.2 = some perr →
        (GetAll f l shard ids).1 = ([], some (errorfLevel msgCLevel l errReplicas))) ∧
    (∀ perr, ((f.newReadCoordinator existReply shard).Pull l
          (existsOp f shard id) "").1.2.2 = some perr →
        (Exists f l shard id).1 = (false, some (errorfLevel msgCLevel l errReplicas))) ∧
    (∀ ch st rerr, ((f.newReadCoordinator findOneReply shard).Pull l
          (getOneOp f shard id props adds) "").1 = (ch, st, none) →
        (f.readOne shard id ch st).1.Err = some rerr →
        (GetOne f l shard id props adds).1.2 =
          some (GoError.wrap
            ("cannot achieve consistency level \"" ++ l.name ++ "\": " ++ rerr.Error) rerr)) ∧
    (∀ ch st rerr, ((f.newReadCoordinator batchReply shard).Pull l
          (getAllOp f shard ids) "").1 = (ch, st, none) →
        (f.readAll shard ids ch st).1.Err = some rerr →
        (GetAll f l shard ids).1.2 =
          some (GoError.wrap
            ("cannot achieve consistency level \"" ++ l.name ++ "\": " ++ rerr.Error) rerr)) ∧
    (∀ ch st rerr, ((f.newReadCoordinator existReply shard).Pull l
          (existsOp f shard id) "").1 = (ch, st, none) →
        (f.readExistence shard id ch st).1.Err = some rerr →
        (Exists f l shard id).1.2 =
          some (GoError.wrap
            ("cannot achieve consistency level \"" ++ l.name ++ "\": " ++ rerr.Error) rerr)) := by
  have hwrap : ∀ rerr : GoError, errorfLevel msgCLevel l rerr =
      GoError.wrap ("cannot achieve consistency level \"" ++ l.name ++ "\": " ++ rerr.Error)
        rerr := by
    intro rerr
    have h := errorfLevel_Error l rerr
    simp only [errorfLevel, GoError.Error] at h ⊢
    rw [h]
  refine ⟨⟨?_, rfl, ?_⟩, ?_, ?_, ?_, ?_, ?_, ?_⟩
  · cases l <;> decide
  · cases l <;> decide
  · intro perr h
    rcases hp : (f.newReadCoordinator findOneReply shard).Pull l
      (getOneOp f shard id props adds) "" with ⟨⟨ch, st, e⟩, t⟩
    rw [hp] at h
    simp only at h
    subst h
    simp only [GetOne, hp]
  · intro perr h
    rcases hp : (f.newReadCoordinator batchReply shard).Pull l
      (getAllOp f shard ids) "" with ⟨⟨ch, st, e⟩, t⟩
    rw [hp] at h
    simp only at h
    subst h
    simp only [GetAll, hp]
  · intro perr h
    rcases hp : (f.newReadCoordinator existReply shard).Pull l
      (existsOp f shard id) "" with ⟨⟨ch, st, e⟩, t⟩
    rw [hp] at h
    simp only at h
    subst h
    simp only [Exists, hp]
  · intro ch st rerr h hr
    rcases hp : (f.newReadCoordinator findOneReply shard).Pull l
      (getOneOp f shard id props adds) "" with ⟨⟨ch2, st2, e⟩, t⟩
    rw [hp] at h
    simp only [Prod.mk.injEq] at h
    obtain ⟨rfl, rfl, rfl⟩ := h
    rcases hq : f.readOne shard id ch2 st2 with ⟨result, t2⟩
    rw [hq] at hr
    simp only at hr
    simp only [GetOne, hp, hq, hr, hwrap]
  · intro ch st rerr h hr
    rcases hp : (f.newReadCoordinator batchReply shard).Pull l
      (getAllOp f shard ids) "" with ⟨⟨ch2, st2, e⟩, t⟩
    rw [hp] at h
    simp only [Prod.mk.injEq] at h
    obtain ⟨rfl, rfl, rfl⟩ := h
    rcases hq : f.readAll shard ids ch2 st2 with ⟨result, t2⟩
    rw [hq] at hr
    simp only at hr
    simp only [GetAll, hp, hq, hr, hwrap]
  · intro ch st rerr h hr
    rcases hp : (f.newReadCoordinator existReply shard).Pull l
      (existsOp f shard id) "" with ⟨⟨ch2, st2, e⟩, t⟩
    rw [hp] at h
    simp only [Prod.mk.injEq] at h
    obtain ⟨rfl, rfl, rfl⟩ := h
    rcases hq : f.readExistence shard id ch2 st2 with ⟨result, t2⟩
    rw [hq] at hr
    simp only at hr
    simp only [Exists, hp, hq, hr, hwrap]

/-- Instance of C8: a failing `Pull` under `GetOne`, a failing read stage under `GetAll`. -/
theorem read_errors_name_level_witness :
    (GetOne downFinder ConsistencyLevel.Quorum "S1" "id" [] []).1 =
      (none, some (GoError.wrap
        "cannot achieve consistency level \"QUORUM\": cannot reach enough replicas"
        errReplicas)) ∧
    (GetAll demoFinder ConsistencyLevel.All "S1" ["id"]).1.2 =
      some (GoError.wrap "cannot achieve consistency level \"ALL\": read repair error"
        errRepair) :=
  ⟨(read_errors_name_level downFinder ConsistencyLevel.Quorum "S1" "id" [] [] []).2.1
      (GoError.new "no host") rfl,
   (read_errors_name_level demoFinder ConsistencyLevel.All "S1" "id" ["id"] [] []).2.2.2.2.2.1
      _ _ errRepair rfl rfl⟩

/-! ## The consistency sweep: levels QUORUM and ALL -/

theorem sweepParts_eq_flatMap {St : Type} (f : Finder St) (l : ConsistencyLevel)
    (parts : List shardPart) :
    sweepParts f l parts =
      parts.flatMap (fun x =>
        (checkShardConsistency f l x).2 ++
          match (checkShardConsistency f l x).1.2 with
          | some err =>
            [Event.LogError [("op", "check_shard_consistency"), ("shard", x.Shard)] err]
          | none => []) := by
  induction parts with
  | nil => rfl
  | cons x rest ih =>
    rw [sweepParts, List.flatMap_cons, ← ih]
    rcases hc : checkShardConsistency f l x with ⟨⟨v, e⟩, t⟩
    cases e <;> simp

/-- C9: for a non-empty list of objects that all have node and shard set and a
level other than ONE (QUORUM or ALL), `CheckConsistency` returns nil, and its
events are, for every part of `cluster(createBatch(objects))` in turn, the events
of the per-shard check of that part followed by one log entry when that check
failed; so every part is checked exactly once whichever checks fail. -/
theorem CheckConsistency_sweeps_every_part {St : Type} (f : Finder St) (l : ConsistencyLevel)
    (objects : List Object) (hl : l = ConsistencyLevel.Quorum ∨ l = ConsistencyLevel.All)
    (hne : objects ≠ [])
    (hvalid : ∀ o ∈ objects, o.BelongsToNode ≠ "" ∧ o.BelongsToShard ≠ "") :
    (CheckConsistency f l (objects.map some)).1.1 = none ∧
    (CheckConsistency f l (objects.map some)).2 =
      (cluster (createBatch objects)).flatMap (fun x =>
        (checkShardConsistency f l x).2 ++
          match (checkShardConsistency f l x).1.2 with
          | some err =>
            [Event.LogError [("op", "check_shard_consistency"), ("shard", x.Shard)] err]
          | none => []) ∧
    (∀ x ∈ cluster (createBatch objects),
      List.Sublist (checkShardConsistency f l x).2 (CheckConsistency f l (objects.map some)).2) := by
  have hlen : (objects.map some).length ≠ 0 := by
    cases objects with
    | nil => exact absurd rfl hne
    | cons _ _ => simp
  have hv : ∀ x ∈ objects.map some, validEntry x := by
    intro x hx
    obtain ⟨o, ho, rfl⟩ := List.mem_map.1 hx
    exact ⟨o, rfl, (hvalid o ho).1, (hvalid o ho).2⟩
  have hone : l ≠ ConsistencyLevel.One := by
    rcases hl with rfl | rfl <;> decide
  have hred : (objects.map some).reduceOption = objects := by
    simp [List.reduceOption]
  have hres : CheckConsistency f l (objects.map some) =
      ((none, objects.map some), sweepParts f l (cluster (createBatch objects))) := by
    unfold CheckConsistency
    rw [if_neg hlen, checkEntries_valid _ 0 hv]
    simp only [if_neg hone, hred]
  rw [hres, sweepParts_eq_flatMap]
  refine ⟨rfl, rfl, ?_⟩
  intro x hx
  show List.Sublist (checkShardConsistency f l x).2 (List.flatMap _ _)
  rw [List.flatMap_def]
  exact List.Sublist.trans
    (List.sublist_append_left (checkShardConsistency f l x).2
      (match (checkShardConsistency f l x).1.2 with
        | some err =>
          [Event.LogError [("op", "check_shard_consistency"), ("shard", x.Shard)] err]
        | none => []))
    (List.sublist_flatten_of_mem (List.mem_map.2 ⟨x, hx, rfl⟩))

/-- Instance of C9: two parts whose checks both fail, the first in `Pull`, the second
in the read stage; both are checked and both failures are logged. -/
theorem CheckConsistency_sweeps_every_part_witness :
    (CheckConsistency demoFinder ConsistencyLevel.Quorum
        [some (objectEx "a" 1 "S2" "N2"), some (objectEx "b" 1 "S1" "N1")]).2 =
      [ Event.Pull "S2" ConsistencyLevel.Quorum "N2",
        Event.LogError [("op", "check_shard_consistency"), ("shard", "S2")]
          (GoError.wrap "pull shard: cannot reach enough replicas" errReplicas),
        Event.Pull "S1" ConsistencyLevel.Quorum "N1",
        Event.DigestReads "h2" "C" "S1" ["b"],
        Event.LogError [("op", "check_shard_consistency"), ("shard", "S1")] errRepair ] :=
  (CheckConsistency_sweeps_every_part demoFinder ConsistencyLevel.Quorum
    [objectEx "a" 1 "S2" "N2", objectEx "b" 1 "S1" "N1"] (Or.inl rfl) (by simp)
    (by
      intro o ho
      simp only [List.mem_cons, List.mem_singleton, List.not_mem_nil, or_false] at ho
      rcases ho with rfl | rfl <;> exact ⟨by decide, by decide⟩)).2.1.trans (by decide)

/-! ## The batch partitioner -/

theorem mem_distinctNames (l : List String) (s : String) : s ∈ distinctNames l ↔ s ∈ l := by
  induction l with
  | nil => simp [distinctNames]
  | cons a rest ih =>
    simp only [distinctNames, List.mem_cons, List.mem_filter, ih, bne_iff_ne, ne_eq]
    by_cases h : s = a <;> simp [h]

theorem nodup_distinctNames (l : List String) : (distinctNames l).Nodup := by
  induction l with
  | nil => simp [distinctNames]
  | cons a rest ih =>
    simp only [distinctNames, List.nodup_cons, List.mem_filter, bne_iff_ne, ne_eq,
      not_true_eq_false, and_false, not_false_eq_true, true_and]
    exact ih.filter _

/-- Splitting a list by a nodup list of keys rearranges the elements whose key
is listed. -/
theorem flatMap_filter_perm (g : Nat → String) (idx : List Nat) (K : List String)
    (hK : K.Nodup) :
    (K.flatMap (fun s => idx.filter (fun i => g i == s))).Perm
      (idx.filter (fun i => decide (g i ∈ K))) := by
  induction K with
  | nil => simp
  | cons s K ih =>
    obtain ⟨hs, hK⟩ := List.nodup_cons.1 hK
    have h1 : (idx.filter (fun i => decide (g i ∈ s :: K))).filter (fun i => g i == s) =
        idx.filter (fun i => g i == s) := by
      rw [List.filter_filter]
      apply List.filter_congr
      intro i _
      by_cases h : g i = s <;> simp [h]
    have h2 : (idx.filter (fun i => decide (g i ∈ s :: K))).filter (fun i => !(g i == s)) =
        idx.filter (fun i => decide (g i ∈ K)) := by
      rw [List.filter_filter]
      apply List.filter_congr
      intro i _
      by_cases h : g i = s
      · simp [h, hs]
      · simp [h]
    have h3 := List.filter_append_perm (fun i => g i == s)
      (idx.filter (fun i => decide (g i ∈ s :: K)))
    rw [h1, h2] at h3
    rw [List.flatMap_cons]
    exact ((List.Perm.append_left _ (ih hK)).trans h3)

theorem flatMap_Index_cluster (b : Batch) :
    (cluster b).flatMap (fun p => p.Index) =
      (distinctNames (b.Index.map b.shardOf)).flatMap
        (fun s => b.Index.filter (fun i => b.shardOf i == s)) := by
  simp only [cluster, List.flatMap_map]
  rfl

theorem createBatch_shardOf (xs : List Object) (i : Nat) (o : Object) (h : xs[i]? = some o) :
    (createBatch xs).shardOf i = o.BelongsToShard := by
  simp [Batch.shardOf, createBatch, h]

/-- C4: the `Index` sequences of the parts of `cluster(createBatch(objects))`,
put end to end, are a rearrangement of `0, 1, ..., N-1`: every position below
`N` occurs in exactly one part and exactly once there, and no other number
occurs. -/
theorem cluster_index_cover (objects : List Object) :
    ((cluster (createBatch objects)).flatMap (fun p => p.Index)).Perm
        (List.range objects.length) ∧
    (∀ i, ((cluster (createBatch objects)).flatMap (fun p => p.Index)).count i =
        if i < objects.length then 1 else 0) := by
  have hperm : ((cluster (createBatch objects)).flatMap (fun p => p.Index)).Perm
      (List.range objects.length) := by
    rw [flatMap_Index_cluster]
    refine (flatMap_filter_perm (createBatch objects).shardOf (createBatch objects).Index _
      (nodup_distinctNames _)).trans ?_
    have hall : (createBatch objects).Index.filter
        (fun i => decide ((createBatch objects).shardOf i ∈
          distinctNames ((createBatch objects).Index.map (createBatch objects).shardOf))) =
        (createBatch objects).Index := by
      rw [List.filter_eq_self]
      intro i hi
      simp only [decide_eq_true_eq, mem_distinctNames]
      exact List.mem_map_of_mem _ hi
    rw [hall]
    exact List.Perm.refl _
  refine ⟨hperm, ?_⟩
  intro i
  rw [hperm.count_eq]
  by_cases h : i < objects.length
  · rw [if_pos h]
    exact List.count_eq_one_of_mem (List.nodup_range _) (List.mem_range.2 h)
  · rw [if_neg h]
    exact List.count_eq_zero_of_not_mem (fun hm => h (List.mem_range.1 hm))

/-- The model meets the assertions of `TestBatchInput` on its first input
(batch_test.go:36-45): one part, equal to the expected literal, whose
`ObjectIDs()` are the ids in order. -/
theorem TestBatchInput_first :
    cluster (createBatch testData1) =
      [{ Shard := "S1", Node := "N1", Data := testData1,
         Index := [0, 1, 2, 3, 4, 5, 6, 7, 8], Oks := List.replicate 9 false }] ∧
    (cluster (createBatch testData1)).map batchPart.ObjectIDs =
      [["0", "1", "2", "3", "4", "5", "6", "7", "8"]] := by
  constructor <;> decide

/-- The model meets the assertions of `TestBatchInput` on its second input
(batch_test.go:56-67): two parts, the shorter on (S2, N2) with the ids of
objects 0, 2, 3, 5, the longer on (S1, N1) with the ids of objects 1, 4, 6, 7, 8,
both with `Oks` of length 9. -/
theorem TestBatchInput_second :
    (cluster (createBatch testData2)).map
        (fun p => (p.Shard, p.Node, p.ObjectIDs, p.Oks.length)) =
      [("S2", "N2", ["0", "2", "3", "5"], 9), ("S1", "N1", ["1", "4", "6", "7", "8"], 9)] := by
  decide

theorem createBatch_shardOf_iff (xs : List Object) (i : Nat) (s : String) :
    (i < xs.length ∧ (createBatch xs).shardOf i = s) ↔
      ∃ o, xs[i]? = some o ∧ o.BelongsToShard = s := by
  constructor
  · rintro ⟨hi, hs⟩
    refine ⟨xs[i], List.getElem?_eq_getElem hi, ?_⟩
    rw [← createBatch_shardOf xs i xs[i] (List.getElem?_eq_getElem hi)]
    exact hs
  · rintro ⟨o, ho, hs⟩
    obtain ⟨hi, _⟩ := List.getElem?_eq_some.1 ho
    exact ⟨hi, (createBatch_shardOf xs i o ho).trans hs⟩

theorem cluster_map_Shard (b : Batch) :
    (cluster b).map (fun p => p.Shard) = distinctNames (b.Index.map b.shardOf) := by
  simp only [cluster, List.map_map]
  exact List.map_id _

/-- C5, as the spec states it, fails on the second input of `TestBatchInput`:
the input carries four distinct (shard, node) pairs but is split into two parts,
and the part labelled (S2, N2) holds position 3, whose object carries (S2, N1). -/
theorem cluster_by_pair_counterexample :
    (distinctPairs testData2).length = 4 ∧
    (cluster (createBatch testData2)).length = 2 ∧
    ¬ (∀ p ∈ cluster (createBatch testData2), ∀ i ∈ p.Index,
        ∃ o, testData2[i]? = some o ∧
          o.BelongsToShard = p.Shard ∧ o.BelongsToNode = p.Node) := by
  refine ⟨by decide, by decide, ?_⟩
  intro h
  obtain ⟨o, ho, _, hn⟩ := h
    { Shard := "S2", Node := "N2", Data := testData2, Index := [0, 2, 3, 5],
      Oks := List.replicate 9 false } (by decide) 3 (by decide)
  have ho3 : o = objectEx "3" 1 "S2" "N1" := by
    have h3 : testData2[3]? = some (objectEx "3" 1 "S2" "N1") := rfl
    rw [h3] at ho
    exact (Option.some.inj ho).symm
  subst ho3
  exact absurd hn (by decide)

/-- C5 (amended): `cluster(createBatch(objects))` yields exactly one part per
distinct `BelongsToShard` observed in the input, and a part holds exactly the
positions of the objects on its shard, in original relative order; on the
second input of `TestBatchInput` this yields exactly 2 parts, positions
0, 2, 3, 5 on (S2, N2) and positions 1, 4, 6, 7, 8 on (S1, N1). -/
theorem cluster_groups_by_shard (objects : List Object) :
    ((cluster (createBatch objects)).map (fun p => p.Shard)).Nodup ∧
    (∀ s, s ∈ (cluster (createBatch objects)).map (fun p => p.Shard) ↔
      ∃ o ∈ objects, o.BelongsToShard = s) ∧
    (∀ p ∈ cluster (createBatch objects),
      (∀ i, i ∈ p.Index ↔ ∃ o, objects[i]? = some o ∧ o.BelongsToShard = p.Shard) ∧
      p.Index.Pairwise (fun i j => i < j)) ∧
    (cluster (createBatch testData2)).length = 2 ∧
    (∃ p ∈ cluster (createBatch testData2),
      p.Shard = "S2" ∧ p.Node = "N2" ∧ p.Index = [0, 2, 3, 5]) ∧
    (∃ p ∈ cluster (createBatch testData2),
      p.Shard = "S1" ∧ p.Node = "N1" ∧ p.Index = [1, 4, 6, 7, 8]) := by
  refine ⟨?_, ?_, ?_, by decide, ?_, ?_⟩
  · rw [cluster_map_Shard]
    exact nodup_distinctNames _
  · intro s
    rw [cluster_map_Shard, mem_distinctNames]
    constructor
    · intro hs
      obtain ⟨i, hi, his⟩ := List.mem_map.1 hs
      have hi2 : i < objects.length := List.mem_range.1 hi
      obtain ⟨o, ho, hos⟩ := (createBatch_shardOf_iff objects i s).1 ⟨hi2, his⟩
      exact ⟨o, List.getElem?_mem ho, hos⟩
    · rintro ⟨o, ho, hos⟩
      obtain ⟨i, hi, hio⟩ := List.getElem_of_mem ho
      have hget : objects[i]? = some o := by
        rw [List.getElem?_eq_getElem hi, hio]
      exact List.mem_map.2 ⟨i, List.mem_range.2 hi,
        ((createBatch_shardOf_iff objects i s).2 ⟨o, hget, hos⟩).2⟩
  · intro p hp
    obtain ⟨s, _, rfl⟩ := List.mem_map.1 hp
    constructor
    · intro i
      show i ∈ (createBatch objects).indexOn s ↔ _
      rw [← createBatch_shardOf_iff]
      simp [Batch.indexOn, Batch.partOn, createBatch, List.mem_filter]
    · show ((createBatch objects).indexOn s).Pairwise _
      exact (List.pairwise_lt_range _).filter _
  · exact ⟨(createBatch testData2).partOn "S2", by decide, rfl, by decide, by decide⟩
  · exact ⟨(createBatch testData2).partOn "S1", by decide, rfl, by decide, by decide⟩

/-! ## Property tokenization -/

/-- C10: with data-type constants that tell string types from text types and
non-empty tokenization constants, `validatePropertyTokenization` returns nil
exactly when the type is string or string[] with tokenization field or word, or
text or text[] with tokenization field, word, whitespace or lowercase, or another
primitive with the empty tokenization, or a reference with the empty
tokenization; in every other case it returns an error, and in particular the
empty tokenization is rejected for string, string[], text and text[]. -/
theorem validatePropertyTokenization_nil_iff (k : Constants)
    (hdt : k.DataTypeText ≠ k.DataTypeString ∧ k.DataTypeText ≠ k.DataTypeStringArray ∧
      k.DataTypeTextArray ≠ k.DataTypeString ∧ k.DataTypeTextArray ≠ k.DataTypeStringArray)
    (htok : k.PropertyTokenizationField ≠ "" ∧ k.PropertyTokenizationWord ≠ "" ∧
      k.PropertyTokenizationWhitespace ≠ "" ∧ k.PropertyTokenizationLowercase ≠ "")
    (tokenization : String) (propertyDataType : PropertyDataType) :
    (validatePropertyTokenization k tokenization propertyDataType = none ↔
      (∃ d, propertyDataType = PropertyDataType.primitive d ∧
        (d = k.DataTypeString ∨ d = k.DataTypeStringArray) ∧
        (tokenization = k.PropertyTokenizationField ∨
          tokenization = k.PropertyTokenizationWord)) ∨
      (∃ d, propertyDataType = PropertyDataType.primitive d ∧
        (d = k.DataTypeText ∨ d = k.DataTypeTextArray) ∧
        (tokenization = k.PropertyTokenizationField ∨
          tokenization = k.PropertyTokenizationWord ∨
          tokenization = k.PropertyTokenizationWhitespace ∨
          tokenization = k.PropertyTokenizationLowercase)) ∨
      (∃ d, propertyDataType = PropertyDataType.primitive d ∧
        d ≠ k.DataTypeString ∧ d ≠ k.DataTypeStringArray ∧
        d ≠ k.DataTypeText ∧ d ≠ k.DataTypeTextArray ∧ tokenization = "") ∨
      (∃ classes, propertyDataType = PropertyDataType.reference classes ∧
        tokenization = "")) ∧
    (validatePropertyTokenization k tokenization propertyDataType ≠ none →
      ∃ err, validatePropertyTokenization k tokenization propertyDataType = some err) ∧
    (∀ d, d = k.DataTypeString ∨ d = k.DataTypeStringArray ∨ d = k.DataTypeText ∨
        d = k.DataTypeTextArray →
      ∃ err, validatePropertyTokenization k "" (PropertyDataType.primitive d) = some err) := by
  obtain ⟨h1, h2, h3, h4⟩ := hdt
  obtain ⟨t1, t2, t3, t4⟩ := htok
  refine ⟨?_, ?_, ?_⟩
  · cases propertyDataType with
    | reference classes =>
      simp [validatePropertyTokenization, PropertyDataType.IsPrimitive]
    | primitive d =>
      simp only [validatePropertyTokenization, PropertyDataType.IsPrimitive,
        PropertyDataType.AsPrimitive, if_true, PropertyDataType.primitive.injEq,
        exists_eq_left', false_and, exists_false, or_false]
      by_cases hs : d = k.DataTypeString ∨ d = k.DataTypeStringArray
      · have hnt : ¬ (d = k.DataTypeText ∨ d = k.DataTypeTextArray) := by
          rintro (rfl | rfl) <;> rcases hs with hs | hs <;> simp_all
        have hnn : ¬ (d ≠ k.DataTypeString ∧ d ≠ k.DataTypeStringArray ∧
            d ≠ k.DataTypeText ∧ d ≠ k.DataTypeTextArray ∧ tokenization = "") := by
          rintro ⟨a, b, _⟩
          rcases hs with hs | hs
          · exact a hs
          · exact b hs
        rw [if_pos hs]
        by_cases ht : tokenization = k.PropertyTokenizationField ∨
            tokenization = k.PropertyTokenizationWord
        · rw [if_pos ht]
          simp [hs, ht]
        · rw [if_neg ht]
          simp [hs, ht, hnt, hnn]
      · rw [if_neg hs]
        by_cases ht : d = k.DataTypeText ∨ d = k.DataTypeTextArray
        · have hnn : ¬ (d ≠ k.DataTypeString ∧ d ≠ k.DataTypeStringArray ∧
              d ≠ k.DataTypeText ∧ d ≠ k.DataTypeTextArray ∧ tokenization = "") := by
            rintro ⟨_, _, a, b, _⟩
            rcases ht with ht | ht
            · exact a ht
            · exact b ht
          rw [if_pos ht]
          by_cases hk : tokenization = k.PropertyTokenizationField ∨
              tokenization = k.PropertyTokenizationWord ∨
              tokenization = k.PropertyTokenizationWhitespace ∨
              tokenization = k.PropertyTokenizationLowercase
          · rw [if_pos hk]
            simp [ht, hk]
          · rw [if_neg hk]
            simp [hs, ht, hk, hnn]
        · rw [if_neg ht]
          have hs1 : d ≠ k.DataTypeString := fun h => hs (Or.inl h)
          have hs2 : d ≠ k.DataTypeStringArray := fun h => hs (Or.inr h)
          have ht1 : d ≠ k.DataTypeText := fun h => ht (Or.inl h)
          have ht2 : d ≠ k.DataTypeTextArray := fun h => ht (Or.inr h)
          by_cases he : tokenization = ""
          · rw [if_pos he]
            simp [hs, ht, he, hs1, hs2, ht1, ht2]
          · rw [if_neg he]
            simp [hs, ht, he]
  · intro h
    exact Option.ne_none_iff_exists'.1 h
  · intro d hd
    have t1' : ¬ ("" = k.PropertyTokenizationField) := fun h => t1 h.symm
    have t2' : ¬ ("" = k.PropertyTokenizationWord) := fun h => t2 h.symm
    have t3' : ¬ ("" = k.PropertyTokenizationWhitespace) := fun h => t3 h.symm
    have t4' : ¬ ("" = k.PropertyTokenizationLowercase) := fun h => t4 h.symm
    simp only [validatePropertyTokenization, PropertyDataType.IsPrimitive,
      PropertyDataType.AsPrimitive, if_true]
    by_cases hs : d = k.DataTypeString ∨ d = k.DataTypeStringArray
    · rw [if_pos hs, if_neg (by simp [t1', t2'])]
      exact ⟨_, rfl⟩
    · have ht : d = k.DataTypeText ∨ d = k.DataTypeTextArray := by
        rcases hd with h | h | h | h
        · exact absurd (Or.inl h) hs
        · exact absurd (Or.inr h) hs
        · exact Or.inl h
        · exact Or.inr h
      rw [if_neg hs, if_pos ht, if_neg (by simp [t1', t2', t3', t4'])]
      exact ⟨_, rfl⟩

/-- Instance of C10 at the constants of the code base. -/
theorem validatePropertyTokenization_nil_iff_witness :
    validatePropertyTokenization weaviateConstants "whitespace"
        (PropertyDataType.primitive "text[]") = none ∧
    (∃ err, validatePropertyTokenization weaviateConstants ""
        (PropertyDataType.primitive "string") = some err) :=
  ⟨((validatePropertyTokenization_nil_iff weaviateConstants
      (by decide) (by decide) "whitespace" (PropertyDataType.primitive "text[]")).1).2
      (Or.inr (Or.inl ⟨"text[]", rfl, Or.inr rfl, Or.inr (Or.inr (Or.inl rfl))⟩)),
   (validatePropertyTokenization_nil_iff weaviateConstants
      (by decide) (by decide) "" (PropertyDataType.primitive "string")).2.2 "string"
      (Or.inl rfl)⟩

end Weaviate
